import Mathlib

/-!
Verification development for the v4l2_usb RAW10 streaming system
(Luckfox Pico Mini capture server and cross-platform PC client).

The definitions below are shallow embeddings of the C sources:
  * the SBGGR10 unpacker (`unpack_sbggr10_scalar`, `unpack_worker_thread`,
    `unpack_sbggr10_image` from `source_all_platform/v4l2_usb_pc_core.c`),
  * the receiver protocol loop (`receive_loop` from the same file),
  * the single-slot frame handoff and the capture loop of the embedded
    server (`v4l2_usb.c`).
Machine integers are modelled as `Nat`; all C values involved stay well
inside their machine widths (40-bit packed groups in `uint64_t`,
10-bit samples in `uint16_t`), so no wraparound is modelled.
Pointers that may be NULL are modelled as `Option`.
-/

namespace V4L2

/-! ## SBGGR10 unpacker (v4l2_usb_pc_core.c) -/

/-- Constant `MIN_CHUNK_SIZE` from `v4l2_usb_pc.h`: minimum input size
(1 MiB) below which the unpacker stays single-threaded. -/
def MIN_CHUNK_SIZE : Nat := 1024 * 1024

/-- Embedding of `unpack_sbggr10_scalar`: rebuild the 40-bit value
`combined` from five bytes and extract four 10-bit pixels.  The C
function stores the four pixels into `pixels[0..3]`; here they are
returned as a list in that order.  The `(uint16_t)` casts in the source
are exact because each masked value is below `2^10`. -/
def unpack_sbggr10_scalar (b0 b1 b2 b3 b4 : Nat) : List Nat :=
  let combined : Nat :=
    (b4 <<< 32) ||| (b3 <<< 24) ||| (b2 <<< 16) ||| (b1 <<< 8) ||| b0
  [(combined >>> 0) &&& 0x3FF,
   (combined >>> 10) &&& 0x3FF,
   (combined >>> 20) &&& 0x3FF,
   (combined >>> 30) &&& 0x3FF]

/-- Embedding of `struct unpack_task`: the byte range a worker thread
processes.  The `raw_data`/`output_data` pointers are passed separately
in the embedding and `thread_id` is only used for logging. -/
structure unpack_task where
  start_offset : Nat
  end_offset : Nat
deriving DecidableEq

/-- The four pixels `unpack_sbggr10_scalar` produces for the 5-byte
group starting at byte offset `pos` of the input. -/
def scalar_at (raw : List Nat) (pos : Nat) : List Nat :=
  unpack_sbggr10_scalar (raw.getD pos 0) (raw.getD (pos + 1) 0)
    (raw.getD (pos + 2) 0) (raw.getD (pos + 3) 0) (raw.getD (pos + 4) 0)

/-- Pixel stream produced by the worker loop of `unpack_worker_thread`
starting at byte offset `pos`, for `n` iterations.  The C loop
`while (raw_pos + 5 <= task->end_offset)` runs exactly
`(end_offset - start_offset) / 5` times, which is how `n` is
instantiated below. -/
def chunkPixelsN (raw : List Nat) : Nat → Nat → List Nat
  | _, 0 => []
  | pos, n + 1 => scalar_at raw pos ++ chunkPixelsN raw (pos + 5) n

/-- Store a list of pixel values at consecutive indices of the output
array, modelling the stores `output_data[pixel_pos + k] = ...`.
`Array.setD` is a no-op out of range; in every call made by the
unpacker the capacity has already been validated. -/
def writePixels : Array Nat → Nat → List Nat → Array Nat
  | out, _, [] => out
  | out, pos, p :: ps => writePixels (out.setD pos p) (pos + 1) ps

/-- The worker loop of `unpack_worker_thread`, with the iteration count
made explicit: each round unpacks one 5-byte group at `raw_pos` into
four pixels at `pixel_pos` and advances both cursors. -/
def unpack_worker_go (raw : List Nat) : Nat → Nat → Nat → Array Nat → Array Nat
  | _, _, 0, out => out
  | raw_pos, pixel_pos, n + 1, out =>
      unpack_worker_go raw (raw_pos + 5) (pixel_pos + 4) n
        (writePixels out pixel_pos (scalar_at raw raw_pos))

/-- Embedding of `unpack_worker_thread`: start at `task->start_offset`,
write pixels from `start_offset / 5 * 4`, and loop while
`raw_pos + 5 <= end_offset`, i.e. `(end_offset - start_offset) / 5`
rounds.  The AVX2 fast path is an unrolled call of the same scalar
routine and is not modelled separately. -/
def unpack_worker_thread (raw : List Nat) (task : unpack_task) (out : Array Nat) : Array Nat :=
  unpack_worker_go raw task.start_offset (task.start_offset / 5 * 4)
    ((task.end_offset - task.start_offset) / 5) out

/-- Thread-count choice of `unpack_sbggr10_image`:
`num_threads = (raw_size < MIN_CHUNK_SIZE) ? 1 : cpu_cores`, capped
at 8. -/
def num_threads_of (cpu_cores raw_size : Nat) : Nat :=
  let n := if raw_size < MIN_CHUNK_SIZE then 1 else cpu_cores
  if 8 < n then 8 else n

/-- Chunk size of `unpack_sbggr10_image`:
`chunk_size = (raw_size / num_threads) / 5 * 5` (rounded down to a
multiple of five). -/
def chunk_size_of (raw_size num_threads : Nat) : Nat :=
  raw_size / num_threads / 5 * 5

/-- Task `i` built by `unpack_sbggr10_image`: byte range
`[i * chunk_size, (i+1) * chunk_size)`, except that the last task ends
at `raw_size`. -/
def task_of (raw_size chunk_size num_threads i : Nat) : unpack_task :=
  { start_offset := i * chunk_size
    end_offset := if i = num_threads - 1 then raw_size else (i + 1) * chunk_size }

/-- The task list built by the partitioning loop of
`unpack_sbggr10_image`. -/
def unpack_tasks (raw_size num_threads : Nat) : List unpack_task :=
  (List.range num_threads).map
    (task_of raw_size (chunk_size_of raw_size num_threads) num_threads)

/-- Parallel execution of the worker threads.  The workers write to
pairwise disjoint ranges of the shared output array (proved below via
the equivalence with the serial pass), so the concurrent execution is
modelled as folding the workers over the array. -/
def run_tasks (raw : List Nat) (tasks : List unpack_task) (out : Array Nat) : Array Nat :=
  tasks.foldl (fun acc t => unpack_worker_thread raw t acc) out

/-- Embedding of `unpack_sbggr10_image`.  NULL pointers are modelled as
`none`; the output capacity `num_pixels` is the size of the array.  The
result pairs the C return code with the final state of the output
buffer, which is returned unchanged on every error path.  Thread
creation is assumed to succeed. -/
def unpack_sbggr10_image (cpu_cores : Nat) (raw_data : Option (List Nat))
    (output_pixels : Option (Array Nat)) : Int × Option (Array Nat) :=
  match raw_data, output_pixels with
  | some raw, some out =>
    if raw.length = 0 then (-1, some out)
    else if raw.length % 5 ≠ 0 then (-1, some out)
    else if out.size < raw.length / 5 * 4 then (-1, some out)
    else if num_threads_of cpu_cores raw.length = 1 then
      (0, some (unpack_worker_thread raw ⟨0, raw.length⟩ out))
    else
      (0, some (run_tasks raw
        (unpack_tasks raw.length (num_threads_of cpu_cores raw.length)) out))
  | _, o => (-1, o)

/-- Full single-threaded unpack of a whole buffer, as a pixel list:
the worker loop over the range `[0, raw.length)`. -/
def unpack_pixels (raw : List Nat) : List Nat :=
  chunkPixelsN raw 0 (raw.length / 5)

/-! ## Basic lemmas about the unpacker -/

lemma lor_left_comm (a b c : Nat) : a ||| (b ||| c) = b ||| (a ||| c) := by
  rw [← Nat.lor_assoc, Nat.lor_comm a b, Nat.lor_assoc]

lemma chunkPixelsN_length (raw : List Nat) :
    ∀ n pos, (chunkPixelsN raw pos n).length = 4 * n := by
  intro n
  induction n with
  | zero => intro pos; rfl
  | succ n ih =>
      intro pos
      have hs : (scalar_at raw pos).length = 4 := rfl
      simp only [chunkPixelsN, List.length_append, ih, hs]
      omega

lemma writePixels_append (a b : List Nat) :
    ∀ (out : Array Nat) (pos : Nat),
      writePixels out pos (a ++ b) = writePixels (writePixels out pos a) (pos + a.length) b := by
  induction a with
  | nil => intro out pos; simp [writePixels]
  | cons x xs ih =>
      intro out pos
      have harith : pos + 1 + xs.length = pos + (xs.length + 1) := by omega
      simp only [List.cons_append, writePixels, List.append_eq, ih,
        List.length_cons, harith]

lemma unpack_worker_go_eq_writePixels (raw : List Nat) :
    ∀ n pos pix out,
      unpack_worker_go raw pos pix n out = writePixels out pix (chunkPixelsN raw pos n) := by
  intro n
  induction n with
  | zero => intro pos pix out; rfl
  | succ n ih =>
      intro pos pix out
      have hlen : (scalar_at raw pos).length = 4 := rfl
      simp only [unpack_worker_go, chunkPixelsN, ih, writePixels_append, hlen]

lemma chunkPixelsN_add (raw : List Nat) :
    ∀ m n pos,
      chunkPixelsN raw pos (m + n) =
        chunkPixelsN raw pos m ++ chunkPixelsN raw (pos + 5 * m) n := by
  intro m
  induction m with
  | zero => intro n pos; simp [chunkPixelsN]
  | succ m ih =>
      intro n pos
      have h1 : m + 1 + n = (m + n) + 1 := by omega
      have h2 : pos + 5 * (m + 1) = (pos + 5) + 5 * m := by omega
      simp only [h1, chunkPixelsN, ih, List.append_assoc, h2]

/-! ## Claim theorems: scalar unpack and input validation -/

/-- C1: per 5-byte group `[b0..b4]` the scalar unpacker emits exactly
the four 10-bit samples of `v = b0 | b1<<8 | b2<<16 | b3<<24 | b4<<32`;
the group `[0xFF,0x03,0x00,0x00,0x00]` decodes to `1023,0,0,0`; and an
input of length `5k` unpacks to exactly `4k` samples. -/
theorem c1_scalar_unpack_bit_layout :
    (∀ b0 b1 b2 b3 b4 : Nat,
      unpack_sbggr10_scalar b0 b1 b2 b3 b4 =
        [(b0 ||| b1 <<< 8 ||| b2 <<< 16 ||| b3 <<< 24 ||| b4 <<< 32) &&& 0x3FF,
         ((b0 ||| b1 <<< 8 ||| b2 <<< 16 ||| b3 <<< 24 ||| b4 <<< 32) >>> 10) &&& 0x3FF,
         ((b0 ||| b1 <<< 8 ||| b2 <<< 16 ||| b3 <<< 24 ||| b4 <<< 32) >>> 20) &&& 0x3FF,
         ((b0 ||| b1 <<< 8 ||| b2 <<< 16 ||| b3 <<< 24 ||| b4 <<< 32) >>> 30) &&& 0x3FF])
    ∧ unpack_sbggr10_scalar 0xFF 0x03 0x00 0x00 0x00 = [1023, 0, 0, 0]
    ∧ (∀ (raw : List Nat) (k : Nat), raw.length = 5 * k →
        (unpack_pixels raw).length = 4 * k) := by
  refine ⟨?_, by decide, ?_⟩
  · intro b0 b1 b2 b3 b4
    have hv : (b4 <<< 32) ||| (b3 <<< 24) ||| (b2 <<< 16) ||| (b1 <<< 8) ||| b0 =
        b0 ||| b1 <<< 8 ||| b2 <<< 16 ||| b3 <<< 24 ||| b4 <<< 32 := by
      simp [Nat.lor_assoc, Nat.lor_comm, lor_left_comm]
    simp only [unpack_sbggr10_scalar, hv, Nat.shiftRight_zero]
  · intro raw k hk
    simp only [unpack_pixels, chunkPixelsN_length, hk]
    omega

/-- Witness for C1 at a concrete input: the 5-byte buffer
`[0xFF,0x03,0,0,0]` has length `5 * 1` and unpacks to `4 * 1`
samples. -/
theorem c1_scalar_unpack_bit_layout_witness :
    (unpack_pixels [0xFF, 0x03, 0x00, 0x00, 0x00]).length = 4 * 1 :=
  c1_scalar_unpack_bit_layout.2.2 [0xFF, 0x03, 0x00, 0x00, 0x00] 1 (by decide)

/-- C8: the unpacker rejects, before writing any sample, inputs whose
length is not a multiple of five and output buffers smaller than
`input_length/5*4` samples; on such calls it returns `-1` and the
output buffer is unchanged. -/
theorem c8_input_validation (cpu_cores : Nat) (raw : List Nat) (out : Array Nat)
    (h : raw.length % 5 ≠ 0 ∨ out.size < raw.length / 5 * 4) :
    unpack_sbggr10_image cpu_cores (some raw) (some out) = (-1, some out) := by
  rcases h with h5 | hcap
  · have hne : raw.length ≠ 0 := by
      intro h0
      exact h5 (by simp [h0])
    simp [unpack_sbggr10_image, hne, h5]
  · have hne : raw.length ≠ 0 := by
      intro h0
      rw [h0] at hcap
      omega
    by_cases h5 : raw.length % 5 = 0
    · simp [unpack_sbggr10_image, hne, h5, hcap]
    · simp [unpack_sbggr10_image, hne, h5]

/-- Witness for C8 at a concrete input: a 6-byte buffer (not a multiple
of five) with an empty output array is rejected unchanged. -/
theorem c8_input_validation_witness :
    unpack_sbggr10_image 4 (some [1, 2, 3, 4, 5, 6]) (some #[]) = (-1, some #[]) :=
  c8_input_validation 4 [1, 2, 3, 4, 5, 6] #[] (Or.inl (by decide))

/-- C10: a NULL input pointer, a NULL output pointer, or a zero-length
input each make `unpack_sbggr10_image` return `-1` without writing any
output, even though a length of 0 is a multiple of 5. -/
theorem c10_null_and_empty_rejected (cpu_cores : Nat) :
    (∀ o : Option (Array Nat), unpack_sbggr10_image cpu_cores none o = (-1, o))
    ∧ (∀ raw : List Nat, unpack_sbggr10_image cpu_cores (some raw) none = (-1, none))
    ∧ (∀ (raw : List Nat) (out : Array Nat), raw.length = 0 →
        unpack_sbggr10_image cpu_cores (some raw) (some out) = (-1, some out)) := by
  refine ⟨fun o => rfl, fun raw => rfl, fun raw out h0 => ?_⟩
  simp [unpack_sbggr10_image, h0]

/-- Witness for C10 at concrete inputs: the empty input buffer is
rejected with the output unchanged. -/
theorem c10_null_and_empty_rejected_witness :
    unpack_sbggr10_image 2 (some []) (some #[7]) = (-1, some #[7]) :=
  (c10_null_and_empty_rejected 2).2.2 [] #[7] (by decide)

/-! ## Parallel/serial equivalence of the chunked unpack -/

lemma unpack_worker_thread_eq (raw : List Nat) (s e : Nat) (out : Array Nat) :
    unpack_worker_thread raw ⟨s, e⟩ out =
      writePixels out (s / 5 * 4) (chunkPixelsN raw s ((e - s) / 5)) := by
  simp only [unpack_worker_thread, unpack_worker_go_eq_writePixels]

lemma run_tasks_suffix (raw : List Nat) (L q nt : Nat) (hle : nt * (q * 5) ≤ L) :
    ∀ n j (out : Array Nat), j + n = nt → 1 ≤ n →
      run_tasks raw ((List.range' j n).map (task_of L (q * 5) nt)) out =
        writePixels out (j * q * 4)
          (chunkPixelsN raw (j * q * 5) ((L - j * q * 5) / 5)) := by
  intro n
  induction n with
  | zero => intro j out hj h1; omega
  | succ m ih =>
      intro j out hj h1
      rcases Nat.eq_zero_or_pos m with hm | hm
      · subst hm
        have hjlast : j = nt - 1 := by omega
        have e1 : j * (q * 5) = j * q * 5 := by ring
        have e6 : j * q * 5 / 5 * 4 = j * q * 4 := by omega
        simp only [List.range', run_tasks, List.map, List.foldl, task_of,
          if_pos hjlast, unpack_worker_thread_eq, e1, e6]
      · have hjne : j ≠ nt - 1 := by omega
        have hj' : (j + 1) + m = nt := by omega
        have hle' : (j + 1) * (q * 5) ≤ L :=
          le_trans (Nat.mul_le_mul_right _ (by omega)) hle
        have hcons : List.range' j (m + 1) = j :: List.range' (j + 1) m := rfl
        have hfold :
            run_tasks raw ((j :: List.range' (j + 1) m).map (task_of L (q * 5) nt)) out =
              run_tasks raw ((List.range' (j + 1) m).map (task_of L (q * 5) nt))
                (unpack_worker_thread raw (task_of L (q * 5) nt j) out) := rfl
        rw [hcons, hfold, ih (j + 1) _ hj' hm]
        have htask : task_of L (q * 5) nt j =
            ⟨j * (q * 5), (j + 1) * (q * 5)⟩ := by
          simp [task_of, hjne]
        rw [htask, unpack_worker_thread_eq]
        have e1 : j * (q * 5) = j * q * 5 := by ring
        have e2 : (j + 1) * (q * 5) = j * q * 5 + 5 * q := by ring
        have e4 : (j + 1) * q * 5 = j * q * 5 + 5 * q := by ring
        have e3 : (j + 1) * q = j * q + q := by ring
        rw [e1, e2, e4, e3]
        have e5 : (j * q * 5 + 5 * q - j * q * 5) / 5 = q := by omega
        have e6 : j * q * 5 / 5 * 4 = j * q * 4 := by omega
        rw [e5, e6]
        have e7 : (j * q + q) * 4 =
            j * q * 4 + (chunkPixelsN raw (j * q * 5) q).length := by
          rw [chunkPixelsN_length]
          ring
        rw [e7, ← writePixels_append, ← chunkPixelsN_add]
        have e8 : q + (L - (j * q * 5 + 5 * q)) / 5 = (L - j * q * 5) / 5 := by
          rw [e2] at hle'
          omega
        rw [e8]

lemma run_tasks_eq_serial (raw : List Nat) (out : Array Nat) (nt : Nat) (h1 : 1 ≤ nt) :
    run_tasks raw (unpack_tasks raw.length nt) out =
      unpack_worker_thread raw ⟨0, raw.length⟩ out := by
  have hq : chunk_size_of raw.length nt = (raw.length / nt / 5) * 5 := rfl
  have hle : nt * ((raw.length / nt / 5) * 5) ≤ raw.length := by
    calc nt * ((raw.length / nt / 5) * 5) ≤ nt * (raw.length / nt) :=
          Nat.mul_le_mul_left nt (Nat.div_mul_le_self _ 5)
      _ ≤ raw.length := Nat.mul_div_le raw.length nt
  have hmain := run_tasks_suffix raw raw.length (raw.length / nt / 5) nt hle nt 0 out
    (by omega) h1
  rw [unpack_tasks, hq, List.range_eq_range', hmain, unpack_worker_thread_eq]
  norm_num

/-- C2: for every valid RAW10 buffer (length a multiple of five, output
buffer large enough) the multi-threaded unpack path — partition into
chunks, unpack each chunk independently, merge — produces output
identical sample-for-sample to the single-threaded scalar unpack of the
whole buffer, for every chunk count the partitioner may pick and every
CPU-core count. -/
theorem c2_parallel_serial_equiv (raw : List Nat) (out : Array Nat) (nt cores : Nat)
    (hnt : 1 ≤ nt) (hcores : 1 ≤ cores) (h5 : raw.length % 5 = 0)
    (hcap : raw.length / 5 * 4 ≤ out.size) :
    run_tasks raw (unpack_tasks raw.length nt) out =
        unpack_worker_thread raw ⟨0, raw.length⟩ out
    ∧ unpack_sbggr10_image cores (some raw) (some out) =
        unpack_sbggr10_image 1 (some raw) (some out) := by
  refine ⟨run_tasks_eq_serial raw out nt hnt, ?_⟩
  by_cases h0 : raw.length = 0
  · simp [unpack_sbggr10_image, h0]
  · have himg : ∀ c, 1 ≤ c →
        unpack_sbggr10_image c (some raw) (some out) =
          (0, some (unpack_worker_thread raw ⟨0, raw.length⟩ out)) := by
      intro c hc
      simp only [unpack_sbggr10_image]
      rw [if_neg h0, if_neg (by simp [h5]), if_neg (Nat.not_lt.mpr hcap)]
      by_cases hnc : num_threads_of c raw.length = 1
      · rw [if_pos hnc]
      · have hge : 1 ≤ num_threads_of c raw.length := by
          simp only [num_threads_of]
          split <;> split <;> omega
        rw [if_neg hnc, run_tasks_eq_serial raw out _ hge]
    rw [himg cores hcores, himg 1 (by omega)]

/-- C7: for every input length that is a multiple of five and every
worker count the partitioner may choose, every chunk boundary (each
chunk's start and end offset) is a multiple of five, and the chunks
exactly cover the input: chunk 0 starts at 0, consecutive chunks are
adjacent, and the last chunk ends at the input length.  The worker
count chosen by the partitioner is always at least one. -/
theorem c7_chunk_alignment (L nt : Nat) (h5 : L % 5 = 0) (hnt : 1 ≤ nt) :
    (∀ i, i < nt →
        (task_of L (chunk_size_of L nt) nt i).start_offset % 5 = 0
        ∧ (task_of L (chunk_size_of L nt) nt i).end_offset % 5 = 0)
    ∧ (task_of L (chunk_size_of L nt) nt 0).start_offset = 0
    ∧ (∀ i, i + 1 < nt →
        (task_of L (chunk_size_of L nt) nt i).end_offset =
          (task_of L (chunk_size_of L nt) nt (i + 1)).start_offset)
    ∧ (task_of L (chunk_size_of L nt) nt (nt - 1)).end_offset = L
    ∧ (∀ cores, 1 ≤ cores → 1 ≤ num_threads_of cores L) := by
  have hcs : chunk_size_of L nt % 5 = 0 := Nat.mul_mod_left _ 5
  have hmul : ∀ m : Nat, m * chunk_size_of L nt % 5 = 0 := by
    intro m
    rw [Nat.mul_mod, hcs]
    simp
  refine ⟨?_, ?_, ?_, ?_, ?_⟩
  · intro i _
    refine ⟨hmul i, ?_⟩
    simp only [task_of]
    by_cases hi : i = nt - 1
    · rw [if_pos hi]; exact h5
    · rw [if_neg hi]; exact hmul (i + 1)
  · simp [task_of]
  · intro i hi
    have hne : i ≠ nt - 1 := by omega
    simp [task_of, hne]
  · simp [task_of]
  · intro cores hc
    simp only [num_threads_of]
    split <;> split <;> omega

/-- Witness for C7 at a concrete input: with a 10-byte input split into
3 chunks, the last chunk ends exactly at the input length. -/
theorem c7_chunk_alignment_witness :
    (task_of 10 (chunk_size_of 10 3) 3 (3 - 1)).end_offset = 10 :=
  (c7_chunk_alignment 10 3 (by decide) (by decide)).2.2.2.1

/-- Witness for C2 at a concrete input: a 10-byte buffer, an 8-sample
output array, 3 requested chunks and 4 CPU cores satisfy all
hypotheses. -/
theorem c2_parallel_serial_equiv_witness :
    run_tasks [0, 1, 2, 3, 4, 5, 6, 7, 8, 9]
        (unpack_tasks ([0, 1, 2, 3, 4, 5, 6, 7, 8, 9] : List Nat).length 3)
        (Array.mkArray 8 0) =
      unpack_worker_thread [0, 1, 2, 3, 4, 5, 6, 7, 8, 9]
        ⟨0, ([0, 1, 2, 3, 4, 5, 6, 7, 8, 9] : List Nat).length⟩ (Array.mkArray 8 0) :=
  (c2_parallel_serial_equiv [0, 1, 2, 3, 4, 5, 6, 7, 8, 9] (Array.mkArray 8 0) 3 4
    (by decide) (by decide) (by decide) (by decide)).1

/-! ## Receiver protocol loop (receive_loop in v4l2_usb_pc_core.c)

The TCP byte stream delivered to the client is modelled as a `List Nat`
of byte values.  `recv_full` succeeds exactly when the requested number
of bytes is still available (a short read, peer close or timeout all
make it return `-1`, ending the session).  The packed `struct
frame_header` occupies 40 bytes on the wire
(six `u32`, one `u64`, two reserved `u32`), read little-endian. -/

/-- Protocol magic value `0xDEADBEEF`. -/
def MAGIC : Nat := 0xDEADBEEF

/-- Sanity ceiling on the frame payload: `50 * 1024 * 1024` bytes. -/
def MAX_FRAME_SIZE : Nat := 50 * 1024 * 1024

/-- `sizeof(struct frame_header)` for the packed header: 6 four-byte
fields, one eight-byte field and two reserved four-byte fields. -/
def sizeof_frame_header : Nat := 40

/-- Little-endian 32-bit field at byte offset `off`. -/
def le32 (b : List Nat) (off : Nat) : Nat :=
  b.getD off 0 ||| (b.getD (off + 1) 0) <<< 8 |||
    (b.getD (off + 2) 0) <<< 16 ||| (b.getD (off + 3) 0) <<< 24

/-- Little-endian 64-bit field at byte offset `off`. -/
def le64 (b : List Nat) (off : Nat) : Nat :=
  le32 b off ||| (le32 b (off + 4)) <<< 32

/-- Embedding of `struct frame_header`. -/
structure frame_header where
  magic : Nat
  frame_id : Nat
  width : Nat
  height : Nat
  pixfmt : Nat
  size : Nat
  timestamp : Nat
  reserved0 : Nat
  reserved1 : Nat
deriving DecidableEq

/-- Reading the packed header out of the received bytes, as the
`recv_full(sock, &header, sizeof(header))` call does on a little-endian
machine. -/
def parse_header (b : List Nat) : frame_header :=
  { magic := le32 b 0
    frame_id := le32 b 4
    width := le32 b 8
    height := le32 b 12
    pixfmt := le32 b 16
    size := le32 b 20
    timestamp := le64 b 24
    reserved0 := le32 b 32
    reserved1 := le32 b 36 }

/-- Embedding of `struct client_config` (v2.0): whether file saving is
enabled, whether `output_dir` is non-NULL (the two are set together by
the argument parser), whether SBGGR10 conversion is enabled, and the
save interval. -/
structure client_config where
  enable_save : Bool
  output_dir : Bool
  enable_conversion : Bool
  save_interval : Nat
deriving DecidableEq

/-- Observable outcome of a receiver session: the frame ids received in
order, the frame ids for which the dispatch guard
`frame_id % save_interval == 0` fired (running the configured action),
the frame ids for which `save_frame` persisted a raw file
(guard fired, saving enabled, output directory present), and the bytes
of the stream left unconsumed when the session ended. -/
structure rx_result where
  frames : List Nat
  actioned : List Nat
  saved : List Nat
  rest : List Nat
deriving DecidableEq

/-- Result of one iteration of the `while (running)` loop of
`receive_loop`: either the session ends (header read failure, bad
magic, bad size, payload read failure), leaving the given bytes
unconsumed, or a full frame has been received. -/
inductive step_result where
  | halt (rest : List Nat)
  | frame (header : frame_header) (rest : List Nat)
deriving DecidableEq

/-- One iteration of `receive_loop`: read the 40-byte header, validate
`magic` (mismatch breaks the loop before any payload byte is read),
validate `0 < size <= 50 MiB`, then read the `size`-byte payload. -/
def receive_step (stream : List Nat) : step_result :=
  if sizeof_frame_header ≤ stream.length then
    let header := parse_header (stream.take sizeof_frame_header)
    let rest := stream.drop sizeof_frame_header
    if header.magic ≠ MAGIC then .halt rest
    else if header.size = 0 ∨ MAX_FRAME_SIZE < header.size then .halt rest
    else if header.size ≤ rest.length then .frame header (rest.drop header.size)
    else .halt rest
  else .halt stream

/-- One session of `receive_loop`, driven by an explicit fuel so the
recursion is structural.  Every iteration either ends the session or
consumes at least 41 bytes (header plus a nonempty payload), so any
fuel above the stream length makes the fuel inexhaustible; the
top-level entry below uses `stream.length + 1`.  Buffer allocation is
assumed to succeed. -/
def receive_go (cfg : client_config) : Nat → List Nat → rx_result
  | 0, stream => ⟨[], [], [], stream⟩
  | fuel + 1, stream =>
    match receive_step stream with
    | .halt rest => ⟨[], [], [], rest⟩
    | .frame header rest2 =>
      let r := receive_go cfg fuel rest2
      { frames := header.frame_id :: r.frames
        actioned :=
          (if header.frame_id % cfg.save_interval = 0 then [header.frame_id] else [])
            ++ r.actioned
        saved :=
          (if header.frame_id % cfg.save_interval = 0
              ∧ cfg.enable_save = true ∧ cfg.output_dir = true
           then [header.frame_id] else [])
            ++ r.saved
        rest := r.rest }

/-- Embedding of `receive_loop`: run the session on the whole delivered
byte stream. -/
def receive_loop (cfg : client_config) (stream : List Nat) : rx_result :=
  receive_go cfg (stream.length + 1) stream

/-! ## Receiver lemmas -/

lemma receive_step_frame_lt {stream : List Nat} {hd : frame_header} {rest2 : List Nat}
    (h : receive_step stream = .frame hd rest2) : rest2.length < stream.length := by
  simp only [receive_step] at h
  split at h
  · rename_i hlen
    split at h
    · exact absurd h (by simp)
    · split at h
      · exact absurd h (by simp)
      · split at h
        · cases h
          simp only [List.length_drop, sizeof_frame_header] at hlen ⊢
          omega
        · exact absurd h (by simp)
  · exact absurd h (by simp)

lemma receive_go_halt {cfg : client_config} {fuel : Nat} {stream rest : List Nat}
    (h : receive_step stream = .halt rest) :
    receive_go cfg (fuel + 1) stream = ⟨[], [], [], rest⟩ := by
  simp only [receive_go]
  rw [h]

lemma receive_go_frame {cfg : client_config} {fuel : Nat} {stream rest2 : List Nat}
    {hd : frame_header} (h : receive_step stream = .frame hd rest2) :
    receive_go cfg (fuel + 1) stream =
      { frames := hd.frame_id :: (receive_go cfg fuel rest2).frames
        actioned :=
          (if hd.frame_id % cfg.save_interval = 0 then [hd.frame_id] else [])
            ++ (receive_go cfg fuel rest2).actioned
        saved :=
          (if hd.frame_id % cfg.save_interval = 0
              ∧ cfg.enable_save = true ∧ cfg.output_dir = true
           then [hd.frame_id] else [])
            ++ (receive_go cfg fuel rest2).saved
        rest := (receive_go cfg fuel rest2).rest } := by
  simp only [receive_go]
  rw [h]

lemma receive_go_congr (cfg : client_config) :
    ∀ f1 f2 stream, stream.length < f1 → stream.length < f2 →
      receive_go cfg f1 stream = receive_go cfg f2 stream := by
  intro f1
  induction f1 using Nat.strong_induction_on with
  | _ f1 ih =>
    intro f2 stream h1 h2
    cases f1 with
    | zero => omega
    | succ a =>
      cases f2 with
      | zero => omega
      | succ b =>
        cases hstep : receive_step stream with
        | halt rest => rw [receive_go_halt hstep, receive_go_halt hstep]
        | frame hd rest2 =>
          have hlt := receive_step_frame_lt hstep
          have heq := ih a (by omega) b rest2 (by omega) (by omega)
          rw [receive_go_frame hstep, receive_go_frame hstep, heq]

/-! ## Claim theorems: receiver protocol -/

/-- C5: a received header whose magic differs from `0xDEADBEEF`
terminates the session immediately: no frame is delivered, exactly the
header bytes have been consumed (the declared payload is neither read
nor interpreted), and no resynchronization is attempted. -/
theorem c5_magic_mismatch_aborts (cfg : client_config) (stream : List Nat)
    (hlen : sizeof_frame_header ≤ stream.length)
    (hmagic : (parse_header (stream.take sizeof_frame_header)).magic ≠ MAGIC) :
    receive_loop cfg stream = ⟨[], [], [], stream.drop sizeof_frame_header⟩ := by
  have hstep : receive_step stream = .halt (stream.drop sizeof_frame_header) := by
    simp only [receive_step, if_pos hlen]
    simp [hmagic]
  rw [receive_loop, receive_go_halt hstep]

/-- Witness for C5 at a concrete input: a stream of 40 zero bytes has
magic `0`, so the session ends at once with everything after the header
untouched. -/
theorem c5_magic_mismatch_aborts_witness :
    receive_loop ⟨true, true, false, 1⟩ (List.replicate 40 0) =
      ⟨[], [], [], (List.replicate 40 0).drop sizeof_frame_header⟩ :=
  c5_magic_mismatch_aborts ⟨true, true, false, 1⟩ (List.replicate 40 0)
    (by decide) (by decide)

/-- C6: after a valid magic, a declared size of `0` or above
`50*1024*1024` ends the session with the payload unread, while the
boundary size `50*1024*1024` itself is accepted and the receiver
proceeds to read the payload and deliver the frame. -/
theorem c6_size_bound_enforcement (cfg : client_config) (stream : List Nat)
    (hlen : sizeof_frame_header ≤ stream.length)
    (hmagic : (parse_header (stream.take sizeof_frame_header)).magic = MAGIC) :
    ((parse_header (stream.take sizeof_frame_header)).size = 0 ∨
        MAX_FRAME_SIZE < (parse_header (stream.take sizeof_frame_header)).size →
      receive_loop cfg stream = ⟨[], [], [], stream.drop sizeof_frame_header⟩)
    ∧ ((parse_header (stream.take sizeof_frame_header)).size = MAX_FRAME_SIZE →
        (parse_header (stream.take sizeof_frame_header)).size ≤
          (stream.drop sizeof_frame_header).length →
      (receive_loop cfg stream).frames =
        (parse_header (stream.take sizeof_frame_header)).frame_id ::
          (receive_loop cfg ((stream.drop sizeof_frame_header).drop
            (parse_header (stream.take sizeof_frame_header)).size)).frames) := by
  constructor
  · intro hsz
    have hstep : receive_step stream = .halt (stream.drop sizeof_frame_header) := by
      simp only [receive_step, if_pos hlen]
      simp [hmagic, hsz]
    rw [receive_loop, receive_go_halt hstep]
  · intro hsz hpay
    have hszok : ¬((parse_header (stream.take sizeof_frame_header)).size = 0 ∨
        MAX_FRAME_SIZE < (parse_header (stream.take sizeof_frame_header)).size) := by
      rw [hsz]
      simp only [MAX_FRAME_SIZE]
      omega
    have hpay' : (parse_header (stream.take sizeof_frame_header)).size ≤
        stream.length - sizeof_frame_header := by
      simpa using hpay
    have hstep : receive_step stream =
        .frame (parse_header (stream.take sizeof_frame_header))
          ((stream.drop sizeof_frame_header).drop
            (parse_header (stream.take sizeof_frame_header)).size) := by
      simp only [receive_step, if_pos hlen]
      simp [hmagic, hszok, hpay, hpay']
    have hlt := receive_step_frame_lt hstep
    rw [receive_loop, receive_go_frame hstep, receive_loop]
    simp only [rx_result.frames]
    rw [receive_go_congr cfg stream.length
      (((stream.drop sizeof_frame_header).drop
        (parse_header (stream.take sizeof_frame_header)).size).length + 1) _
      (by omega) (by omega)]

/-- Header bytes of a frame whose magic is valid and whose declared
size is exactly the 50 MiB ceiling (`0x03200000` little-endian at
offset 20). -/
def boundary_header : List Nat :=
  [0xEF, 0xBE, 0xAD, 0xDE,
   0, 0, 0, 0,
   0, 0, 0, 0,
   0, 0, 0, 0,
   0, 0, 0, 0,
   0x00, 0x00, 0x20, 0x03,
   0, 0, 0, 0, 0, 0, 0, 0,
   0, 0, 0, 0,
   0, 0, 0, 0]

/-- A wire stream carrying one frame at the boundary size: the header
followed by a 50 MiB payload. -/
def boundary_stream : List Nat :=
  boundary_header ++ List.replicate MAX_FRAME_SIZE 0

lemma boundary_stream_take :
    boundary_stream.take sizeof_frame_header = boundary_header := by
  rw [boundary_stream]
  exact List.take_left boundary_header _

lemma boundary_stream_len : sizeof_frame_header ≤ boundary_stream.length := by
  have h40 : boundary_header.length = 40 := rfl
  rw [boundary_stream, List.length_append, List.length_replicate, h40]
  rw [sizeof_frame_header, MAX_FRAME_SIZE]
  omega

/-- Witness for C6 at a concrete input: the boundary-size frame is
accepted and delivered. -/
theorem c6_size_bound_enforcement_witness :
    (receive_loop ⟨true, true, false, 1⟩ boundary_stream).frames =
      (parse_header (boundary_stream.take sizeof_frame_header)).frame_id ::
        (receive_loop ⟨true, true, false, 1⟩ ((boundary_stream.drop sizeof_frame_header).drop
          (parse_header (boundary_stream.take sizeof_frame_header)).size)).frames :=
  (c6_size_bound_enforcement ⟨true, true, false, 1⟩ boundary_stream
    boundary_stream_len
    (by rw [boundary_stream_take]; decide)).2
    (by rw [boundary_stream_take]; decide)
    (by
      have hh : sizeof_frame_header = boundary_header.length := rfl
      rw [boundary_stream_take, boundary_stream, hh, List.drop_left,
        List.length_replicate]
      decide)

/-! ## Dispatch by save interval -/

lemma receive_go_actioned_filter (cfg : client_config) :
    ∀ fuel stream,
      (receive_go cfg fuel stream).actioned =
        (receive_go cfg fuel stream).frames.filter
          (fun i => i % cfg.save_interval == 0) := by
  intro fuel
  induction fuel with
  | zero => intro stream; rfl
  | succ fuel ih =>
      intro stream
      cases hstep : receive_step stream with
      | halt rest => rw [receive_go_halt hstep]; rfl
      | frame hd rest2 =>
          rw [receive_go_frame hstep]
          by_cases hg : hd.frame_id % cfg.save_interval = 0
          · simp [hg, List.filter_cons, ih]
          · simp [hg, List.filter_cons, ih]

/-- One serialized test frame: a valid 40-byte header with the given
frame id, BG10 left aside (pixfmt 0), payload size 5, followed by five
payload bytes. -/
def test_frame (i : Nat) : List Nat :=
  [0xEF, 0xBE, 0xAD, 0xDE,
   i, 0, 0, 0,
   0, 0, 0, 0,
   0, 0, 0, 0,
   0, 0, 0, 0,
   5, 0, 0, 0,
   0, 0, 0, 0, 0, 0, 0, 0,
   0, 0, 0, 0,
   0, 0, 0, 0,
   9, 9, 9, 9, 9]

/-- A wire stream carrying three frames with ids 0, 1, 2. -/
def test_stream : List Nat := test_frame 0 ++ test_frame 1 ++ test_frame 2

set_option maxRecDepth 8000 in
/-- C9: the configured dispatch action runs exactly for the frames with
`frame_id % save_interval == 0` and is skipped for all others; for a
session delivering frames 0, 1, 2 with saving enabled, interval 1
persists all three frames and interval 2 persists exactly frames 0
and 2. -/
theorem c9_save_interval_dispatch :
    (∀ (cfg : client_config) (stream : List Nat), 0 < cfg.save_interval →
      (receive_loop cfg stream).actioned =
        (receive_loop cfg stream).frames.filter
          (fun i => i % cfg.save_interval == 0))
    ∧ (receive_loop ⟨true, true, false, 1⟩ test_stream).frames = [0, 1, 2]
    ∧ (receive_loop ⟨true, true, false, 1⟩ test_stream).saved = [0, 1, 2]
    ∧ (receive_loop ⟨true, true, false, 2⟩ test_stream).saved = [0, 2] := by
  refine ⟨?_, by decide, by decide, by decide⟩
  intro cfg stream _
  exact receive_go_actioned_filter cfg (stream.length + 1) stream

/-- Witness for C9 at a concrete input: the filter law applied to the
three-frame test session with interval 2. -/
theorem c9_save_interval_dispatch_witness :
    (receive_loop ⟨true, true, false, 2⟩ test_stream).actioned =
      (receive_loop ⟨true, true, false, 2⟩ test_stream).frames.filter
        (fun i => i % (2 : Nat) == 0) :=
  c9_save_interval_dispatch.1 ⟨true, true, false, 2⟩ test_stream (by decide)

/-! ## FrameHandoff and capture loop (embedded server v4l2_usb.c)

The producer (capture thread) and consumer (sender thread) of the
embedded server share the single variable `current_frame`, protected by
`frame_mutex`/`frame_ready`.  A `NULL` `current_frame.data` is the
empty slot, modelled as `none`.  The capture thread publishes by
overwriting all four fields unconditionally; the sender consumes by
sending the frame and setting `current_frame.data = NULL`. -/

/-- Embedding of `struct frame_data`.  The `data` pointer
`buffers[buf_index].start[0]` is identified by the index of the pool
buffer it points into. -/
structure frame_data where
  buf : Nat
  size : Nat
  frame_id : Nat
  timestamp : Nat
deriving DecidableEq

/-- Operations on the handoff slot: `pub f` is the capture thread's
critical section (overwrite `current_frame`, signal `frame_ready`);
`take` is the sender's critical section (wait until the slot is
nonempty, send the frame, set `current_frame.data = NULL`). -/
inductive handoff_op where
  | pub (f : frame_data)
  | take
deriving DecidableEq

/-- Mutex-serialized trace semantics of the handoff: run the operations
in order, returning the frames the consumer observed and the final
slot.  A `take` on an empty slot is the sender blocked in
`pthread_cond_wait`, observing nothing. -/
def run_handoff : List handoff_op → Option frame_data → List frame_data × Option frame_data
  | [], slot => ([], slot)
  | .pub f :: ops, _ => run_handoff ops (some f)
  | .take :: ops, slot =>
    match slot with
    | some f =>
      let r := run_handoff ops none
      (f :: r.1, r.2)
    | none => run_handoff ops none

/-- C3: publishing two frames into the handoff before the consumer
takes either leaves only the second frame in the slot; the consumer
observes exactly the second frame, and the first is never delivered. -/
theorem c3_handoff_drop_semantics (s : Option frame_data) (f1 f2 : frame_data) :
    run_handoff [.pub f1, .pub f2, .take] s = ([f2], none)
    ∧ (f1 ≠ f2 → f1 ∉ (run_handoff [.pub f1, .pub f2, .take] s).1) := by
  refine ⟨rfl, fun hne => ?_⟩
  simp [run_handoff, hne]

/-- Witness for C3 at concrete frames: publishing frame 0 then frame 1
and taking once never delivers frame 0. -/
theorem c3_handoff_drop_semantics_witness :
    (⟨0, 100, 0, 5⟩ : frame_data) ∉
      (run_handoff [.pub ⟨0, 100, 0, 5⟩, .pub ⟨1, 90, 1, 6⟩, .take] none).1 :=
  (c3_handoff_drop_semantics none ⟨0, 100, 0, 5⟩ ⟨1, 90, 1, 6⟩).2 (by decide)

/-- State of the capture side: the buffers currently queued to the
driver (in FIFO order), the handoff slot shared with the sender, and
the `frame_counter`. -/
structure capture_state where
  driver_queue : List Nat
  slot : Option frame_data
  frame_counter : Nat
deriving DecidableEq

/-- One iteration of `capture_loop` after `select()` reports data:
dequeue the front buffer (`VIDIOC_DQBUF`), publish it into the handoff
if a client is connected, then immediately requeue the same buffer
(`VIDIOC_QBUF`) and increment `frame_counter`.  An empty driver queue
is a failed dequeue, which the loop retries. -/
def capture_step (st : capture_state) (client_connected : Bool)
    (bytes_used timestamp : Nat) : capture_state :=
  match st.driver_queue with
  | [] => st
  | b :: rest =>
    { driver_queue := rest ++ [b]
      slot :=
        if client_connected then
          some { buf := b, size := bytes_used, frame_id := st.frame_counter,
                 timestamp := timestamp }
        else st.slot
      frame_counter := st.frame_counter + 1 }

/-- C4 counterexample: starting from the steady state (three buffers
queued, empty slot) with a client connected, a single capture iteration
leaves the newly published frame unconsumed in the handoff slot while
its buffer is already back in the driver queue.  The capture loop
requeues the just-published buffer, not the previous in-flight one, so
the buffer handed to the sender is returned to the driver before the
sender has read it. -/
theorem c4_requeue_counterexample :
    (capture_step ⟨[0, 1, 2], none, 0⟩ true 100 7).slot = some ⟨0, 100, 0, 7⟩
    ∧ 0 ∈ (capture_step ⟨[0, 1, 2], none, 0⟩ true 100 7).driver_queue := by
  decide

/-- C4 (amended): after the capture loop dequeues a buffer and, with a
client connected, publishes it into the handoff, it requeues that same
buffer immediately in the same iteration — while the published frame
referencing it is still in the slot awaiting the sender. -/
theorem c4_immediate_requeue (st : capture_state) (bytes_used timestamp b : Nat)
    (rest : List Nat) (hq : st.driver_queue = b :: rest) :
    capture_step st true bytes_used timestamp =
      { driver_queue := rest ++ [b]
        slot := some ⟨b, bytes_used, st.frame_counter, timestamp⟩
        frame_counter := st.frame_counter + 1 }
    ∧ b ∈ (capture_step st true bytes_used timestamp).driver_queue := by
  constructor
  · simp [capture_step, hq]
  · simp [capture_step, hq]

/-- Witness for the amended C4 at a concrete input. -/
theorem c4_immediate_requeue_witness :
    capture_step ⟨[3, 4, 5], none, 10⟩ true 200 9 =
      { driver_queue := [4, 5] ++ [3]
        slot := some ⟨3, 200, 10, 9⟩
        frame_counter := 10 + 1 } :=
  (c4_immediate_requeue ⟨[3, 4, 5], none, 10⟩ 200 9 3 [4, 5] (by decide)).1

end V4L2
